import Mathlib

set_option maxRecDepth 400000

/-!
Verification of the EPGOAT linker prototype
(`engineering/linker/linker_prototype.py`) against its design
specification.  The Python source is shallowly embedded: instants are
modelled as minutes on a linear timeline for the scheduler, and as
validated calendar datetimes for the time resolver; regular-expression
matching is embedded by a small backtracking matcher over an explicit
pattern table.
-/

/-! ### Scheduler: `add_block`, `fill_no_programming`, per-channel loop of `main` -/

/-- A programme block, mirroring the dict built by `add_block`.  The Python
field `end` is named `stop` here because `end` is a Lean keyword.  Instants
are minutes on a linear timeline.  Title and description text is abstracted
to the constant part of the Python f-strings; no claim depends on it. -/
structure Block where
  title : String
  start : Nat
  stop : Nat
  desc : String
deriving DecidableEq, Repr

/-- Loop body of `fill_no_programming`:
`while cur < day_end: nxt = min(cur + block_minutes, day_end); add; cur = nxt`.
`fuel` bounds the number of iterations; `day_end - cur` iterations always
suffice when `0 < block_minutes`, which is how the program always calls it
(`block_minutes = 120`). -/
def fillGo : Nat → Nat → Nat → Nat → List Block
  | 0, _, _, _ => []
  | fuel + 1, cur, day_end, block_minutes =>
    if cur < day_end then
      let nxt := min (cur + block_minutes) day_end
      Block.mk "No Programming Today." cur nxt "" ::
        fillGo fuel nxt day_end block_minutes
    else []

/-- `fill_no_programming(programs, cid, day_start, day_end, block_minutes)`
restricted to the block list it appends for one channel. -/
def fill_no_programming (day_start day_end block_minutes : Nat) : List Block :=
  fillGo (day_end - day_start) day_start day_end block_minutes

/-- Models `event_start_ct.date() == tgt_date` for an instant already
converted to the output zone: with `day_start`/`day_end` the zone-local
midnights bounding the target date, the instant falls on the target date
iff it lies in `[day_start, day_end)`. -/
def onTargetDate (t day_start day_end : Nat) : Bool :=
  decide (day_start ≤ t) && decide (t < day_end)

/-- The per-channel scheduling logic of `main` (the loop body at lines
731-775 of `linker_prototype.py`): generic channels are tiled with
120-minute filler; an event with a time on the target date gets a pre-block,
a live block capped by `min(event_duration_min, max_event_duration_min)` and
`day_end`, and post-fill; an event with a time on another date, or with no
parsed time, gets a single all-day block. -/
def build_channel_schedule (classification : String) (parsed : Option Nat)
    (day_start day_end event_duration_min max_event_duration_min : Nat) :
    List Block :=
  if classification = "generic" then
    fill_no_programming day_start day_end 120
  else
    match parsed with
    | some event_start =>
      if onTargetDate event_start day_start day_end = false then
        [Block.mk "Airing Next" day_start day_end ""]
      else
        -- event_duration = min(event_duration_min, max_event_duration_min)
        -- event_end = min(event_start + event_duration, day_end)
        (if event_start > day_start then
            [Block.mk "Airing Next" day_start event_start ""]
          else []) ++
        [Block.mk "LIVE" event_start
            (min (event_start + min event_duration_min max_event_duration_min)
              day_end) ""] ++
        (if min (event_start + min event_duration_min max_event_duration_min)
              day_end < day_end then
            fill_no_programming
              (min (event_start + min event_duration_min max_event_duration_min)
                day_end) day_end 120
          else [])
    | none => [Block.mk "Airing Next (Time TBA)" day_start day_end ""]

/-- `contigB bs lo hi`: the blocks tile `[lo, hi)` exactly, in order: the
first block starts at `lo`, every block is nonempty and ends where the next
one begins, and the last block ends at `hi`. -/
def contigB : List Block → Nat → Nat → Bool
  | [], lo, hi => lo == hi
  | b :: bs, lo, hi =>
    (b.start == lo) && decide (b.start < b.stop) && contigB bs b.stop hi

/-! ### Classifier: `classify_channel` and its string helpers -/

/-- Whitespace as recognised by Python `str.strip()` / `\s` (ASCII part;
the channel names of interest contain no non-ASCII whitespace). -/
def isPySpace (c : Char) : Bool :=
  c == ' ' || c == '\t' || c == '\n' || c == '\r' || c.toNat == 11 || c.toNat == 12

/-- Python `str.strip()`. -/
def trimWs (l : List Char) : List Char :=
  ((l.dropWhile isPySpace).reverse.dropWhile isPySpace).reverse

/-- Worker for `collapseWs`; the flag records whether the previous character
was whitespace, so that a whitespace run is replaced by a single space. -/
def collapseGo : Bool → List Char → List Char
  | _, [] => []
  | inWs, c :: rest =>
    if isPySpace c then
      if inWs then collapseGo true rest else ' ' :: collapseGo true rest
    else c :: collapseGo false rest

/-- Python `re.sub(r"\s+", " ", s)`. -/
def collapseWs (l : List Char) : List Char := collapseGo false l

/-- Python `str.upper()` restricted to ASCII (`Char.toUpper`); fluff tokens
and family labels are ASCII. -/
def upperL (l : List Char) : List Char := l.map Char.toUpper

/-- A character kept by `re.split(r"[^A-Z0-9]+", payload_upper)`. -/
def isTokChar (c : Char) : Bool := c.isUpper || c.isDigit

/-- Worker for `splitTokens`; `acc` is the current token, reversed. -/
def splitGo : List Char → List Char → List (List Char)
  | acc, [] => if acc.isEmpty then [] else [acc.reverse]
  | acc, c :: rest =>
    if isTokChar c then splitGo (c :: acc) rest
    else if acc.isEmpty then splitGo [] rest
    else acc.reverse :: splitGo [] rest

/-- `[t for t in re.split(r"[^A-Z0-9]+", payload_upper) if t]`. -/
def splitTokens (l : List Char) : List (List Char) := splitGo [] l

/-- `FLUFF_TOKENS` (source lines 191-194). -/
def FLUFF_TOKENS : List (List Char) :=
  ["LIVE", "TEST", "FHD", "UHD", "HEVC", "EN", "ES", "ALT", "MULTI", "BACKUP",
   "FEED", "EVENT", "STREAM", "1080P", "2160P", "4K", "HDR", "SD", "HD",
   "H264", "H265", "AAC", "AC3", "EAC3"].map String.data

/-- `SPECIAL_GENERIC_EXCEPTIONS` — empty in the source ("Removed per
instruction"). -/
def SPECIAL_GENERIC_EXCEPTIONS : List (String × List (List Char)) := []

/-- The guard `matched_family and matched_family in SPECIAL_GENERIC_EXCEPTIONS
and payload_upper in SPECIAL_GENERIC_EXCEPTIONS[matched_family]`. -/
def specialHit (matched_family : String) (payload_upper : List Char) : Bool :=
  matched_family != "" &&
    (match SPECIAL_GENERIC_EXCEPTIONS.find? (fun p => p.1 == matched_family) with
     | some s => s.2.contains payload_upper
     | none => false)

/-- The guard `tokens and all(t in FLUFF_TOKENS for t in tokens)`. -/
def allFluff (tokens : List (List Char)) : Bool :=
  !tokens.isEmpty && tokens.all (fun t => FLUFF_TOKENS.contains t)

/-- `ChannelClassification` (source lines 469-476). -/
structure ChannelClassification where
  classification : String
  payload : List Char
  shell_end : Nat
  tokens : List (List Char)
  warnings : List String
deriving DecidableEq, Repr

/-- `classify_channel(name, matched_family, match_obj)` (source lines
478-520); the regex match object is modelled by its end offset
(`match_obj.end()`), `none` standing for a missing match object. -/
def classify_channel (name : List Char) (matched_family : String)
    (matchEnd : Option Nat) : ChannelClassification :=
  match matchEnd with
  | none => ⟨"generic", [], 0, [], ["no_pattern_match"]⟩
  | some me =>
    let payload := trimWs (name.drop me)
    if payload.isEmpty then ⟨"generic", [], me, [], ["empty_payload"]⟩
    else
      let payload_upper := upperL (trimWs (collapseWs payload))
      if specialHit matched_family payload_upper then
        ⟨"generic", payload, me, [], ["special_generic_exception"]⟩
      else
        let tokens := splitTokens payload_upper
        if allFluff tokens then
          ⟨"generic", payload, me, tokens, ["all_fluff_tokens"]⟩
        else
          ⟨"event", payload, me, tokens,
            if matched_family != "" && payload_upper == upperL matched_family.data
            then ["ambiguous_family_only"] else []⟩


/-! ### Shell matcher: `ALLOWED_CHANNEL_PATTERNS`, `build_channel_regex`,
`match_prefix_and_shell` -/

/-- Character classes occurring in the channel regexes: a case-insensitive
literal character (the table is compiled with `re.IGNORECASE`), `\\d`, and
`\\s`. -/
inductive CClass where
  | ci (c : Char)
  | digit
  | ws
deriving DecidableEq, Repr

/-- Whether a character belongs to a class.  Case-insensitivity is by
ASCII case folding (`Char.toLower`), as in `re.IGNORECASE` for the ASCII
pattern texts of the table. -/
def CClass.matches : CClass → Char → Bool
  | .ci c, a => a.toLower == c.toLower
  | .digit, a => a.isDigit
  | .ws, a => isPySpace a

/-- One token of a channel regex: a character class with a repetition
range `{lo, hi}` (`hi = none` meaning unbounded, as in `+`).  A literal
`c` is `{1,1}`, an optional `c?` is `{0,1}`. -/
structure Pat where
  cls : CClass
  lo : Nat
  hi : Option Nat
deriving DecidableEq, Repr

/-- Length of the maximal run of characters of class `cl` at the head. -/
def countClass (cl : CClass) : List Char → Nat
  | [] => 0
  | c :: rest => if cl.matches c then countClass cl rest + 1 else 0

/-- Backtracking matcher for a token sequence, anchored at the start of
`s`; returns the number of characters consumed (the Python `m.end()`), or
`none`.  Greedy with backtracking like Python `re`: a repetition first
takes the longest possible run, and when the continuation fails the bound
is lowered by one (re-encoded in the head token's `hi`).  `fuel` bounds
the number of steps; `patMatch` supplies ample fuel for the patterns and
strings involved. -/
def matchPats : Nat → List Pat → List Char → Option Nat
  | 0, _, _ => none
  | _ + 1, [], _ => some 0
  | fuel + 1, p :: ps, s =>
    let d := countClass p.cls s
    let top := match p.hi with | none => d | some h => min d h
    if top < p.lo then none
    else
      match matchPats fuel ps (s.drop top) with
      | some n => some (top + n)
      | none =>
        if top = 0 then none
        else matchPats fuel (⟨p.cls, p.lo, some (top - 1)⟩ :: ps) s

/-- Fuel bound for `matchPats`. -/
def patFuel (ps : List Pat) (s : List Char) : Nat :=
  (ps.length + s.length + 4) * (ps.length + s.length + 4) *
    (ps.length + s.length + 4)

/-- Anchored match of a token sequence (Python `rx.match`), returning the
match end. -/
def patMatch (ps : List Pat) (s : List Char) : Option Nat :=
  matchPats (patFuel ps s) ps s

/-- A case-insensitive literal character. -/
def lit (c : Char) : Pat := ⟨CClass.ci c, 1, some 1⟩

/-- Case-insensitive literal text. -/
def lits (s : String) : List Pat := s.data.map lit

/-- `\\d{lo,hi}`. -/
def dRep (lo hi : Nat) : Pat := ⟨CClass.digit, lo, some hi⟩

/-- `\\d+`. -/
def dPlus : Pat := ⟨CClass.digit, 1, none⟩

/-- An optional literal, `c?`. -/
def copt (c : Char) : Pat := ⟨CClass.ci c, 0, some 1⟩

/-- `\\s+`. -/
def wsPlus : Pat := ⟨CClass.ws, 1, none⟩

/-- `\\s*`. -/
def wsStar : Pat := ⟨CClass.ws, 0, none⟩

/-- The apostrophe character (escaped in two of the source regexes). -/
def apos : Char := Char.ofNat 39

/-- The apostrophe as a string (for the two family labels carrying it). -/
def aposS : String := String.singleton apos

/-- `ALLOWED_CHANNEL_PATTERNS` (source lines 53-155), in declared order:
each entry is the shell grammar (regex right of `^`) and the family label. -/
def ALLOWED_CHANNEL_PATTERNS : List (List Pat × String) := [
  (lits "BIG10+ " ++ [dRep 2 2] ++ lits ":", "BIG10+"),
  (lits "Bundesliga " ++ [dRep 2 2] ++ lits ":", "Bundesliga"),
  (lits "EPL " ++ [dRep 2 2, copt ':'], "EPL"),
  (lits "EPL" ++ [dRep 2 2], "EPL"),
  (lits "La Liga " ++ [dRep 2 2] ++ lits ":", "La Liga"),
  (lits "Ligue1 " ++ [dRep 2 2] ++ lits ":", "Ligue1"),
  (lits "Serie A " ++ [dRep 2 2] ++ lits ":", "Serie A"),
  (lits "Scottish Premiership " ++ [dRep 2 2] ++ lits ":", "Scottish Premiership"),
  (lits "SPFL " ++ [dRep 2 2] ++ lits ":", "SPFL"),
  (lits "NBA " ++ [dRep 2 2] ++ lits ":", "NBA"),
  (lits "NCAAB " ++ [dRep 2 2] ++ lits ":", "NCAAB"),
  (lits "NCAAW B " ++ [dRep 2 2] ++ lits ":", "NCAAW B"),
  (lits "NJCAA Men" ++ [lit apos] ++ lits "s Basketball " ++ [dRep 2 2] ++ lits ":", "NJCAA Men" ++ aposS ++ "s Basketball"),
  (lits "NJCAA Women" ++ [lit apos] ++ lits "s Basketball " ++ [dRep 2 2] ++ lits ":", "NJCAA Women" ++ aposS ++ "s Basketball"),
  (lits "USA Real NBA " ++ [dRep 2 2] ++ lits ":", "USA Real NBA"),
  (lits "WNBA " ++ [dRep 2 2, copt ':'], "WNBA"),
  (lits "FIBA " ++ [dRep 2 2] ++ lits ":", "FIBA"),
  (lits "NCAAF " ++ [dRep 2 3, copt ':'], "NCAAF"),
  (lits "NFL " ++ [dRep 2 2, copt ':'], "NFL"),
  (lits "NFL Game Pass " ++ [dPlus], "NFL Game Pass"),
  (lits "NFL Multi Screen / HDR " ++ [dPlus], "NFL Multi Screen"),
  (lits "NFL" ++ [wsPlus] ++ lits "|" ++ [wsPlus, dRep 2 2], "NFL |"),
  (lits "NHL " ++ [dRep 2 2] ++ lits ":", "NHL"),
  (lits "NHL | " ++ [dRep 2 2] ++ lits ":", "NHL |"),
  (lits "USA Real NHL " ++ [dRep 2 2] ++ lits ":", "USA Real NHL"),
  (lits "WHL " ++ [dRep 2 2] ++ lits ":", "WHL"),
  (lits "QMJHL " ++ [dRep 2 2] ++ lits ":", "QMJHL"),
  (lits "OHL " ++ [dRep 2 2] ++ lits ":", "OHL"),
  (lits "MLB " ++ [dRep 2 2] ++ lits ":", "MLB"),
  (lits "MiLB " ++ [dRep 2 2] ++ lits ":", "MiLB"),
  (lits "MILB " ++ [dRep 2 2] ++ lits ":", "MILB"),
  (lits "USA Real MLB " ++ [dRep 2 2] ++ lits ":", "USA Real MLB"),
  (lits "MLS " ++ [dRep 2 2, copt ':'], "MLS"),
  (lits "MLS " ++ [dRep 1 3] ++ lits " |", "MLS"),
  (lits "MLS NEXT PRO " ++ [dRep 2 2], "MLS NEXT PRO"),
  (lits "MLS Espanolⓧ " ++ [dRep 2 2], "MLS Espanol"),
  (lits "USA | MLS " ++ [dRep 2 2], "USA | MLS"),
  (lits "USA Soccer" ++ [dRep 2 2] ++ lits ":", "USA Soccer"),
  (lits "FA Cup " ++ [dRep 2 2], "FA Cup"),
  (lits "EFL" ++ [dRep 2 2], "EFL"),
  (lits "Super League + " ++ [dRep 2 2], "Super League"),
  (lits "UEFA Champions League " ++ [dRep 2 2] ++ lits ":", "UEFA Champions League"),
  (lits "UEFA Europa League " ++ [dRep 2 2] ++ lits ":", "UEFA Europa League"),
  (lits "UEFA Europa Conf. League " ++ [dRep 2 2] ++ lits ":", "UEFA Europa Conf League"),
  (lits "UEFA/FIFA " ++ [dRep 2 2], "UEFA/FIFA"),
  (lits "GAAGO:GAME " ++ [dRep 2 2], "GAAGO"),
  (lits "LOI GAME " ++ [dRep 2 2], "LOI"),
  (lits "National League TV " ++ [dRep 2 2], "National League TV"),
  (lits "DAZN BE " ++ [dRep 2 2] ++ lits ":", "DAZN BE"),
  (lits "DAZN CA " ++ [dPlus, copt ':'], "DAZN CA"),
  (lits "ESPN+ " ++ [dPlus, copt ':'], "ESPN+"),
  (lits "Fanatiz " ++ [dRep 2 2] ++ lits ":", "Fanatiz"),
  (lits "Flo Football " ++ [dRep 2 2] ++ lits ":", "Flo Football"),
  (lits "Flo Racing " ++ [dRep 2 2] ++ lits ":", "Flo Racing"),
  (lits "Flo Sports " ++ [dRep 2 4] ++ lits ":", "Flo Sports"),
  (lits "Paramount+ " ++ [dRep 2 3, copt ':'], "Paramount+"),
  (lits "Peacock " ++ [dRep 2 2] ++ lits ":", "Peacock"),
  (lits "Prime US " ++ [dRep 2 2] ++ lits ":", "Prime US"),
  (lits "SEC+ / ACC extra " ++ [dRep 2 2], "SEC+/ACC extra"),
  (lits "Fubo Sports Network " ++ [dRep 2 2], "Fubo Sports Network"),
  (lits "Sportsnet+ " ++ [dRep 2 2, copt ':'], "Sportsnet+"),
  (lits "TSN+ " ++ [dRep 2 2] ++ lits ":", "TSN+"),
  (lits "MAX NL " ++ [dRep 2 3] ++ lits ":", "MAX NL"),
  (lits "MAX SE " ++ [dRep 2 3] ++ lits ":", "MAX SE"),
  (lits "MAX USA " ++ [dRep 2 2] ++ lits ":", "MAX USA"),
  (lits "Viaplay NL " ++ [dRep 2 2] ++ lits ":", "Viaplay NL"),
  (lits "Viaplay SE " ++ [dRep 2 2] ++ lits ":", "Viaplay SE"),
  (lits "Viaplay NO " ++ [dPlus], "Viaplay NO"),
  (lits "TV2 NO " ++ [dRep 2 2] ++ lits ":", "TV2 NO"),
  (lits "Tv4 Play SE " ++ [dRep 2 2] ++ lits ":", "Tv4 Play SE"),
  (lits "Sky Sports+ |", "Sky Sports+"),
  (lits "Sky Tennis+ |", "Sky Tennis+"),
  (lits "Setanta Sports " ++ [dRep 2 2] ++ lits ":", "Setanta Sports"),
  (lits "Tennis " ++ [dRep 2 2] ++ lits ":", "Tennis"),
  (lits "Tennis TV | Event " ++ [dRep 2 2], "Tennis TV"),
  (lits "UFC " ++ [dRep 2 2], "UFC"),
  (lits "TrillerTV Event " ++ [dRep 2 2], "TrillerTV"),
  (lits "Matchroom Event " ++ [dPlus], "Matchroom"),
  (lits "LIVE EVENT " ++ [dRep 2 2], "LIVE EVENT"),
  (lits "Dirtvision:EVENT " ++ [dRep 2 2], "Dirtvision"),
  (lits "Clubber " ++ [dRep 2 2], "Clubber"),
  (lits "NCAA Softball " ++ [dRep 2 2] ++ lits ":", "NCAA Softball")
]

/-- `build_channel_regex` (source lines 161-169): appends `\\s*` to the
pattern text (the `^` anchor is the anchoring of `rx.match`). -/
def build_channel_regex (p : List Pat) : List Pat := p ++ [wsStar]

/-- `CHANNEL_PATTERNS` (source line 171): `(family, compiled pattern)`. -/
def CHANNEL_PATTERNS : List (String × List Pat) :=
  ALLOWED_CHANNEL_PATTERNS.map fun e => (e.2, build_channel_regex e.1)

/-- Worker for `normalizeColons`, i.e. `re.sub(r"\\s+:\\s*", ":", n)`:
each maximal whitespace run followed by a colon, together with any
whitespace after that colon, is replaced by a single colon.  `pend`
buffers a whitespace run not yet known to precede a colon (reversed);
`skipping` is set right after an emitted colon so that the `\\s*` part is
consumed. -/
def normGo : Bool → List Char → List Char → List Char
  | _, pend, [] => pend.reverse
  | true, pend, c :: rest =>
    if isPySpace c then normGo true pend rest
    else c :: normGo false [] rest
  | false, pend, c :: rest =>
    if isPySpace c then normGo false (c :: pend) rest
    else if c == ':' && !pend.isEmpty then ':' :: normGo true [] rest
    else pend.reverse ++ c :: normGo false [] rest

/-- `re.sub(r"\\s+:\\s*", ":", n)`. -/
def normalizeColons (l : List Char) : List Char := normGo false [] l

/-- The `for family_name, rx in CHANNEL_PATTERNS` loop of
`match_prefix_and_shell`: first pattern whose anchored match succeeds
wins; the result mirrors `(matched, family, match end)`. -/
def scanPatterns : List (String × List Pat) → List Char →
    Bool × Option String × Option Nat
  | [], _ => (false, none, none)
  | (family, rx) :: rest, n =>
    match patMatch rx n with
    | some e => (true, some family, some e)
    | none => scanPatterns rest n

/-- `match_prefix_and_shell(name)` (source lines 173-185).  The argument
is an `Option` to model Python `None`, which `(name or "")` turns into the
empty string. -/
def match_prefix_and_shell (name : Option (List Char)) :
    Bool × Option String × Option Nat :=
  scanPatterns CHANNEL_PATTERNS (normalizeColons (trimWs (name.getD [])))


/-! ### Time resolver: `try_parse_time` and helpers -/

/-- The IANA zones appearing in `TZ_TO_IANA`, modelled as fixed
standard-time UTC offsets in minutes.  DST is abstracted away: no claim
depends on an absolute offset, only on date-level results which agree with
the real zones for the inputs of interest. -/
inductive Zone where
  | utc | ny | chicago | denver | la | berlin | london | lisbon
deriving DecidableEq, Repr

/-- Standard UTC offset of a zone, in minutes. -/
def zoneOffsetMin : Zone → Int
  | .utc => 0 | .ny => -300 | .chicago => -360 | .denver => -420
  | .la => -480 | .berlin => 60 | .london => 0 | .lisbon => 0

/-- Gregorian leap year. -/
def isLeapYear (y : Nat) : Bool :=
  y % 4 == 0 && (y % 100 != 0 || y % 400 == 0)

/-- `_DAYS_IN_MONTH` with the leap adjustment, by leap flag. -/
def daysInMonthL (leap : Bool) (m : Nat) : Nat :=
  if m == 2 then (if leap then 29 else 28)
  else if m == 4 || m == 6 || m == 9 || m == 11 then 30
  else 31

/-- Days in a month of a given year. -/
def daysInMonthN (y m : Nat) : Nat := daysInMonthL (isLeapYear y) m

/-- Days before January 1 of year `y`, in the epoch of
`datetime.date.toordinal` (day 1 = 0001-01-01). -/
def daysBeforeYear (y : Nat) : Nat :=
  (y - 1) * 365 + (y - 1) / 4 - (y - 1) / 100 + (y - 1) / 400

/-- `_DAYS_BEFORE_MONTH` plus the leap adjustment, by leap flag. -/
def daysBeforeMonthL (leap : Bool) (m : Nat) : Nat :=
  (match m with
   | 1 => 0 | 2 => 31 | 3 => 59 | 4 => 90 | 5 => 120 | 6 => 151
   | 7 => 181 | 8 => 212 | 9 => 243 | 10 => 273 | 11 => 304 | _ => 334)
  + (if 2 < m && leap then 1 else 0)

/-- `datetime.date.toordinal` (CPython `_ymd2ord`). -/
def toOrdinal (y m d : Nat) : Nat :=
  daysBeforeYear y + daysBeforeMonthL (isLeapYear y) m + d

/-- `datetime.date.fromordinal` (CPython `_ord2ymd`). -/
def ord2ymd (n0 : Nat) : Nat × Nat × Nat :=
  let n := n0 - 1
  let n400 := n / 146097
  let r400 := n % 146097
  let n100 := r400 / 36524
  let r100 := r400 % 36524
  let n4 := r100 / 1461
  let r4 := r100 % 1461
  let n1 := r4 / 365
  let nr := r4 % 365
  let year := n400 * 400 + 1 + n100 * 100 + n4 * 4 + n1
  if n1 == 4 || n100 == 4 then
    (year - 1, 12, 31)
  else
    let leap := n1 == 3 && (n4 != 24 || n100 == 3)
    let month := (nr + 50) / 32
    let preceding := daysBeforeMonthL leap month
    if preceding > nr then
      (year, month - 1, nr - (preceding - daysInMonthL leap (month - 1)) + 1)
    else
      (year, month, nr - preceding + 1)

/-- An aware `datetime.datetime`, restricted to whole minutes (the parsed
expressions carry no seconds). -/
structure DTime where
  year : Nat
  month : Nat
  day : Nat
  hour : Nat
  minute : Nat
  zone : Zone
deriving DecidableEq, Repr

/-- The range checks of the `datetime` constructor (and of `replace`). -/
def validDT (t : DTime) : Bool :=
  decide (1 ≤ t.year) && decide (t.year ≤ 9999) &&
  decide (1 ≤ t.month) && decide (t.month ≤ 12) &&
  decide (1 ≤ t.day) && decide (t.day ≤ daysInMonthN t.year t.month) &&
  decide (t.hour ≤ 23) && decide (t.minute ≤ 59)

/-- `dt.datetime(year, mon, day, hour, minute, 0, tzinfo=src)`; a raised
`ValueError` is modelled by `Except.error`. -/
def mk_datetime (y m d h mi : Nat) (z : Zone) : Except String DTime :=
  if validDT ⟨y, m, d, h, mi, z⟩ then .ok ⟨y, m, d, h, mi, z⟩
  else .error "ValueError"

/-- `date.max.toordinal()`. -/
def maxOrdinal : Nat := toOrdinal 9999 12 31

/-- `astimezone`: shift by the two offsets and re-split into calendar
fields; results outside the representable calendar raise (`OverflowError`
in CPython), which the caller swallows like any other error. -/
def astimezone (t : DTime) (target : Zone) : Except String DTime :=
  let total : Int := (toOrdinal t.year t.month t.day : Int) * 1440
    + t.hour * 60 + t.minute - zoneOffsetMin t.zone + zoneOffsetMin target
  if total < 1440 || total > maxOrdinal * 1440 + 1439 then .error "OverflowError"
  else
    let tn := total.toNat
    let ymd := ord2ymd (tn / 1440)
    .ok ⟨ymd.1, ymd.2.1, ymd.2.2, tn % 1440 / 60, tn % 1440 % 60, target⟩

/-- `TZ_TO_IANA` (source lines 227-237), zone names replaced by the
fixed-offset `Zone` model. -/
def TZ_TO_IANA : List (String × Zone) :=
  [("ET", .ny), ("EST", .ny), ("EDT", .ny),
   ("CT", .chicago), ("CST", .chicago), ("CDT", .chicago),
   ("MT", .denver), ("MST", .denver), ("MDT", .denver),
   ("PT", .la), ("PST", .la), ("PDT", .la),
   ("UTC", .utc), ("GMT", .utc),
   ("CET", .berlin), ("CEST", .berlin),
   ("BST", .london), ("WEST", .lisbon), ("WET", .lisbon)]

/-- `_tzinfo_for_abbr` (source lines 239-246): the abbreviation is
uppercased and looked up; an unknown abbreviation falls back to US
Eastern (`America/New_York`) with a non-fatal stderr warning. -/
def tzinfo_for_abbr (abbr : List Char) : Zone :=
  match (TZ_TO_IANA.find? fun p => p.1.data == upperL abbr) with
  | some p => p.2
  | none => Zone.ny

/-- `MONTHS` (source lines 223-225): lowercase month abbreviations. -/
def MONTHS : List (List Char × Nat) :=
  [("jan".data, 1), ("feb".data, 2), ("mar".data, 3), ("apr".data, 4),
   ("may".data, 5), ("jun".data, 6), ("jul".data, 7), ("aug".data, 8),
   ("sep".data, 9), ("oct".data, 10), ("nov".data, 11), ("dec".data, 12)]

/-- ASCII lowercasing of a captured group (`.lower()`). -/
def lowerL (l : List Char) : List Char := l.map Char.toLower

/-- `MONTHS.get(mon_abbr[:3].lower())`. -/
def monthLookup (s : List Char) : Option Nat :=
  (MONTHS.find? fun p => p.1 == lowerL s).map fun p => p.2

/-- `_fix_12hour_time` (source lines 248-263): 12 is the pivot (12 AM is
00, 12 PM is 12); otherwise add 12 for PM. -/
def fix_12hour_time (hour : Nat) (ampm : List Char) : Nat :=
  if upperL ampm == "PM".data then (if hour == 12 then 12 else hour + 12)
  else (if hour == 12 then 0 else hour)

/-- A bare date (`date_context`, the run target date). -/
structure DateD where
  year : Nat
  month : Nat
  day : Nat
deriving DecidableEq, Repr

/-- `_handle_year_rollover` (source lines 265-277): when the parsed date
is more than 60 days before `date_context`, rebuild the instant with the
year incremented.  `datetime.replace` re-validates, so Feb 29 of a
non-leap successor year raises, which the caller swallows. -/
def handle_year_rollover (t : DTime) (date_context : DateD) :
    Except String DTime :=
  if (toOrdinal date_context.year date_context.month date_context.day : Int)
      - toOrdinal t.year t.month t.day > 60 then
    mk_datetime (t.year + 1) t.month t.day t.hour t.minute t.zone
  else .ok t

/-- Character classes of the time regexes (`[A-Za-z]`, `\d`, `\s`, and
case-insensitive literals). -/
inductive TClass where
  | alpha | digit | ws | lc (c : Char)
deriving DecidableEq, Repr

/-- Class membership (`re.IGNORECASE` literals fold ASCII case). -/
def TClass.matches : TClass → Char → Bool
  | .alpha, a => a.isAlpha
  | .digit, a => a.isDigit
  | .ws, a => isPySpace a
  | .lc c, a => a.toLower == c.toLower

/-- One token of a time regex: a class repetition (capturing or not), or
the alternation `(AM|PM)` — always a capture group in the five grammars. -/
inductive TTok where
  | cl (c : TClass) (lo : Nat) (hi : Option Nat) (cap : Bool)
  | ampm
deriving DecidableEq, Repr

/-- Maximal run of characters of class `cl` at the head. -/
def countT (cl : TClass) : List Char → Nat
  | [] => 0
  | c :: rest => if cl.matches c then countT cl rest + 1 else 0

/-- Backtracking matcher for a time regex, anchored at the head of `s`;
returns the captured groups in order.  Greedy with backtracking, as
`matchPats`; the `(AM|PM)` branches are mutually exclusive on their first
character, so no backtracking is needed between them. -/
def matchToks : Nat → List TTok → List Char → Option (List (List Char))
  | 0, _, _ => none
  | _ + 1, [], _ => some []
  | fuel + 1, t :: ts, s =>
    match t with
    | .ampm =>
      match s with
      | a :: b :: rest =>
        if (a.toLower == 'a' || a.toLower == 'p') && b.toLower == 'm' then
          match matchToks fuel ts rest with
          | some gs => some ([a, b] :: gs)
          | none => none
        else none
      | _ => none
    | .cl c lo hi cap =>
      let d := countT c s
      let top := match hi with | none => d | some h => min d h
      if top < lo then none
      else
        match matchToks fuel ts (s.drop top) with
        | some gs => some (if cap then s.take top :: gs else gs)
        | none =>
          if top = 0 then none
          else matchToks fuel (.cl c lo (some (top - 1)) cap :: ts) s

/-- Fuel bound for `matchToks`. -/
def tokFuel (ts : List TTok) (s : List Char) : Nat :=
  (ts.length + s.length + 4) * (ts.length + s.length + 4) *
    (ts.length + s.length + 4)

/-- `rx.search(text)`: an anchored attempt at every position, left to
right; the leftmost successful position wins. -/
def searchToks (ts : List TTok) : List Char → Option (List (List Char))
  | [] => matchToks (tokFuel ts []) ts []
  | s@(_ :: rest) =>
    match matchToks (tokFuel ts s) ts s with
    | some gs => some gs
    | none => searchToks ts rest

/-- `[A-Za-z]{lo,hi}` as a capture group. -/
def tAlpha (lo hi : Nat) : TTok := .cl .alpha lo (some hi) true

/-- `(\d{lo,hi})` as a capture group. -/
def tDigitC (lo hi : Nat) : TTok := .cl .digit lo (some hi) true

/-- `\s+`. -/
def tWsP : TTok := .cl .ws 1 none false

/-- `\s*`. -/
def tWsS : TTok := .cl .ws 0 none false

/-- A literal character. -/
def tLit (c : Char) : TTok := .cl (.lc c) 1 (some 1) false

/-- `EVENT_TIME_RXES` (source lines 205-220), in priority order. -/
def EVENT_TIME_RXES : List (List TTok) :=
  [ [tAlpha 3 3, tWsP, tDigitC 1 2, tWsP, tDigitC 1 2, tLit ':', tDigitC 2 2,
     tWsS, TTok.ampm, tWsS, tAlpha 1 4],
    [tDigitC 1 2, tLit ':', tDigitC 2 2, tWsS, TTok.ampm, tWsS, tAlpha 1 4],
    [tDigitC 1 2, tLit '/', tDigitC 1 2, tWsP, tDigitC 1 2, tLit ':',
     tDigitC 2 2, tWsS, tAlpha 1 4],
    [tDigitC 1 2, tLit ':', tDigitC 2 2, tWsS, tAlpha 1 4],
    [tDigitC 1 2, tWsS, TTok.ampm, tWsS, tAlpha 1 4] ]

/-- `int()` of a captured digit group. -/
def natOfDigits (l : List Char) : Nat :=
  l.foldl (fun acc c => acc * 10 + (c.toNat - 48)) 0

/-- The per-grammar conversion body of `try_parse_time` (the contents of
the `try:` block for regex `i`); `Except.error` models a raised (and, in
the caller, swallowed) `ValueError`/`OverflowError`, and the
`if not mon: continue` of grammar 0. -/
def grammarHandler (i : Nat) (gs : List (List Char)) (year : Nat)
    (central : Zone) (date_context : DateD) : Except String DTime :=
  match i, gs with
  | 0, [mon_abbr, day, hh, mm, ampm, tz_abbr] =>
    (match monthLookup (mon_abbr.take 3) with
     | none => .error "unknown month"
     | some mon => do
        let src := tzinfo_for_abbr tz_abbr
        let local0 ← mk_datetime year mon (natOfDigits day)
          (fix_12hour_time (natOfDigits hh) ampm) (natOfDigits mm) src
        let local1 ← handle_year_rollover local0 date_context
        astimezone local1 central)
  | 1, [hh, mm, ampm, tz_abbr] => do
      let src := tzinfo_for_abbr tz_abbr
      let local0 ← mk_datetime date_context.year date_context.month
        date_context.day (fix_12hour_time (natOfDigits hh) ampm)
        (natOfDigits mm) src
      astimezone local0 central
  | 2, [mon, day, hh, mm, tz_abbr] => do
      let src := tzinfo_for_abbr tz_abbr
      let local0 ← mk_datetime year (natOfDigits mon) (natOfDigits day)
        (natOfDigits hh) (natOfDigits mm) src
      let local1 ← handle_year_rollover local0 date_context
      astimezone local1 central
  | 3, [hh, mm, tz_abbr] => do
      let src := tzinfo_for_abbr tz_abbr
      let local0 ← mk_datetime date_context.year date_context.month
        date_context.day (natOfDigits hh) (natOfDigits mm) src
      astimezone local0 central
  | 4, [hh, ampm, tz_abbr] => do
      let src := tzinfo_for_abbr tz_abbr
      let local0 ← mk_datetime date_context.year date_context.month
        date_context.day (fix_12hour_time (natOfDigits hh) ampm) 0 src
      astimezone local0 central
  | _, _ => .error "group mismatch"

/-- One iteration of the `for rx in EVENT_TIME_RXES` loop: `none` when
regex `i` does not occur in the text, otherwise the handler's outcome. -/
def grammarAttempt (i : Nat) (text : List Char) (year : Nat) (central : Zone)
    (date_context : DateD) : Option (Except String DTime) :=
  match searchToks (EVENT_TIME_RXES.getD i []) text with
  | none => none
  | some gs => some (grammarHandler i gs year central date_context)

/-- Grammar `i` succeeds cleanly: it occurs in the text and converts
without error. -/
def grammarOk (i : Nat) (text : List Char) (year : Nat) (central : Zone)
    (date_context : DateD) : Option DTime :=
  match grammarAttempt i text year central date_context with
  | some (.ok t) => some t
  | _ => none

/-- The grammar loop of `try_parse_time`: a regex that does not occur, or
whose conversion raises, moves on to the next one; the first clean success
returns. -/
def tryLoop (is : List Nat) (text : List Char) (year : Nat) (central : Zone)
    (date_context : DateD) : Option DTime :=
  match is with
  | [] => none
  | i :: rest =>
    match grammarAttempt i text year central date_context with
    | none => tryLoop rest text year central date_context
    | some (.error _) => tryLoop rest text year central date_context
    | some (.ok t) => some t

/-- `try_parse_time(payload, year, central, date_context)` (source lines
279-351). -/
def try_parse_time (payload : List Char) (year : Nat) (central : Zone)
    (date_context : DateD) : Option DTime :=
  tryLoop [0, 1, 2, 3, 4] (trimWs payload) year central date_context

/-! ### Theorems -/

theorem contigB_le {bs : List Block} {lo hi : Nat} (h : contigB bs lo hi = true) :
    lo ≤ hi := by
  induction bs generalizing lo with
  | nil => simp [contigB] at h; omega
  | cons b bs ih =>
    simp only [contigB, Bool.and_eq_true, beq_iff_eq, decide_eq_true_eq] at h
    obtain ⟨⟨h1, h2⟩, h3⟩ := h
    have := ih h3
    omega

theorem contigB_append {xs ys : List Block} {lo mid hi : Nat}
    (hx : contigB xs lo mid = true) (hy : contigB ys mid hi = true) :
    contigB (xs ++ ys) lo hi = true := by
  induction xs generalizing lo with
  | nil =>
    simp only [contigB, beq_iff_eq] at hx
    simpa [hx] using hy
  | cons b xs ih =>
    simp only [contigB, Bool.and_eq_true] at hx ⊢
    exact ⟨hx.1, ih hx.2⟩

theorem contigB_bounds {bs : List Block} {lo hi : Nat}
    (h : contigB bs lo hi = true) :
    ∀ b ∈ bs, lo ≤ b.start ∧ b.start < b.stop ∧ b.stop ≤ hi := by
  induction bs generalizing lo with
  | nil => intro b hb; cases hb
  | cons c bs ih =>
    simp only [contigB, Bool.and_eq_true, beq_iff_eq, decide_eq_true_eq] at h
    obtain ⟨⟨h1, h2⟩, h3⟩ := h
    intro b hb
    rcases List.mem_cons.mp hb with rfl | hb
    · exact ⟨le_of_eq h1.symm, h2, contigB_le h3⟩
    · have := ih h3 b hb
      omega

theorem contigB_chain {bs : List Block} {lo hi : Nat}
    (h : contigB bs lo hi = true) :
    List.Chain' (fun a b => a.start < b.start) bs := by
  induction bs generalizing lo with
  | nil => exact List.chain'_nil
  | cons c bs ih =>
    simp only [contigB, Bool.and_eq_true, beq_iff_eq, decide_eq_true_eq] at h
    obtain ⟨⟨h1, h2⟩, h3⟩ := h
    refine List.chain'_cons'.mpr ⟨?_, ih h3⟩
    intro b hb
    have hmem : b ∈ bs := by
      cases hbs : bs with
      | nil => rw [hbs] at hb; simp at hb
      | cons x xs => rw [hbs] at hb; simp at hb; simp [hbs, hb]
    have := contigB_bounds h3 b hmem
    omega

theorem contigB_pairwise {bs : List Block} {lo hi : Nat}
    (h : contigB bs lo hi = true) :
    List.Pairwise (fun a b => a.stop ≤ b.start) bs := by
  induction bs generalizing lo with
  | nil => exact List.Pairwise.nil
  | cons c bs ih =>
    simp only [contigB, Bool.and_eq_true, beq_iff_eq, decide_eq_true_eq] at h
    obtain ⟨⟨h1, h2⟩, h3⟩ := h
    refine List.pairwise_cons.mpr ⟨?_, ih h3⟩
    intro b hb
    exact (contigB_bounds h3 b hb).1

theorem fillGo_contig {fuel cur day_end block_minutes : Nat}
    (hb : 0 < block_minutes) (hc : cur ≤ day_end)
    (hf : day_end - cur ≤ fuel) :
    contigB (fillGo fuel cur day_end block_minutes) cur day_end = true := by
  induction fuel generalizing cur with
  | zero =>
    have : cur = day_end := by omega
    simp [fillGo, contigB, this]
  | succ fuel ih =>
    by_cases hlt : cur < day_end
    · have hnxt : min (cur + block_minutes) day_end ≤ day_end := min_le_right _ _
      have hcurlt : cur < min (cur + block_minutes) day_end := by
        apply lt_min <;> omega
      simp only [fillGo, if_pos hlt, contigB, Bool.and_eq_true, beq_iff_eq,
        decide_eq_true_eq]
      refine ⟨⟨by simp, hcurlt⟩, ih hnxt (by omega)⟩
    · have : cur = day_end := by omega
      simp [fillGo, hlt, contigB, this]

theorem fillGo_len {fuel cur day_end block_minutes : Nat} :
    ∀ b ∈ fillGo fuel cur day_end block_minutes,
      b.stop - b.start ≤ block_minutes := by
  induction fuel generalizing cur with
  | zero => intro b hb; simp [fillGo] at hb
  | succ fuel ih =>
    intro b hb
    simp only [fillGo] at hb
    split at hb
    · rcases List.mem_cons.mp hb with rfl | hb
      · simp only []
        omega
      · exact ih b hb
    · cases hb

theorem build_channel_schedule_contig (classification : String)
    (parsed : Option Nat) (day_start day_end ev mev : Nat)
    (hev : 0 < ev) (hmev : 0 < mev) (hday : day_start < day_end) :
    contigB (build_channel_schedule classification parsed day_start day_end ev mev)
      day_start day_end = true := by
  unfold build_channel_schedule
  split
  · exact fillGo_contig (by norm_num) (le_of_lt hday) le_rfl
  · cases parsed with
    | none => simp [contigB, hday]
    | some t =>
      dsimp only
      by_cases ht : onTargetDate t day_start day_end = false
      · rw [if_pos ht]
        simp [contigB, hday]
      · rw [if_neg ht]
        have htt : onTargetDate t day_start day_end = true := by
          revert ht; cases onTargetDate t day_start day_end <;> simp
        have ht' : day_start ≤ t ∧ t < day_end := by
          simpa [onTargetDate] using htt
        have hdurpos : 0 < min ev mev := lt_min hev hmev
        have hte : t < min (t + min ev mev) day_end := lt_min (by omega) ht'.2
        have hede : min (t + min ev mev) day_end ≤ day_end := min_le_right _ _
        have hlive : contigB [Block.mk "LIVE" t (min (t + min ev mev) day_end) ""]
            t (min (t + min ev mev) day_end) = true := by
          simp [contigB, hte]
        have hpost : contigB (if min (t + min ev mev) day_end < day_end then
              fill_no_programming (min (t + min ev mev) day_end) day_end 120
            else []) (min (t + min ev mev) day_end) day_end = true := by
          by_cases hlt : min (t + min ev mev) day_end < day_end
          · rw [if_pos hlt]
            exact fillGo_contig (by norm_num) hede le_rfl
          · rw [if_neg hlt]
            have heq : min (t + min ev mev) day_end = day_end := by omega
            simp [contigB, heq]
        by_cases hpre : t > day_start
        · rw [if_pos hpre]
          exact contigB_append
            (contigB_append (by simp [contigB, hpre]) hlive) hpost
        · rw [if_neg hpre]
          have heq : t = day_start := by omega
          subst heq
          exact contigB_append (by simpa using hlive) hpost

/-- C1: for every channel and every scheduling case (generic; event with a
time on the target date; event with a time on a different date; event with
no parsed time), assuming positive event-duration parameters, the block
list produced for the channel tiles `[day_start, day_end)` contiguously
(`contigB`: ascending, gap-free, exactly covering), is in strictly
ascending `start` order, has no overlapping pair, and in the generic case
every block is at most `120` minutes (the fill block size) long. -/
theorem c1_schedule_partition (classification : String) (parsed : Option Nat)
    (day_start day_end ev mev : Nat)
    (hev : 0 < ev) (hmev : 0 < mev) (hday : day_start < day_end) :
    contigB (build_channel_schedule classification parsed day_start day_end ev mev)
        day_start day_end = true
    ∧ List.Chain' (fun a b => a.start < b.start)
        (build_channel_schedule classification parsed day_start day_end ev mev)
    ∧ List.Pairwise (fun a b => a.stop ≤ b.start)
        (build_channel_schedule classification parsed day_start day_end ev mev)
    ∧ ∀ b ∈ build_channel_schedule "generic" parsed day_start day_end ev mev,
        b.stop - b.start ≤ 120 := by
  have hc := build_channel_schedule_contig classification parsed day_start day_end
    ev mev hev hmev hday
  refine ⟨hc, contigB_chain hc, contigB_pairwise hc, ?_⟩
  intro b hb
  simp only [build_channel_schedule, if_pos rfl, fill_no_programming] at hb
  exact fillGo_len b hb

theorem c1_schedule_partition_witness :
    contigB (build_channel_schedule "event" (some 1110) 0 1440 180 360) 0 1440 = true
    ∧ List.Chain' (fun a b => a.start < b.start)
        (build_channel_schedule "event" (some 1110) 0 1440 180 360)
    ∧ List.Pairwise (fun a b => a.stop ≤ b.start)
        (build_channel_schedule "event" (some 1110) 0 1440 180 360)
    ∧ ∀ b ∈ build_channel_schedule "generic" (some 1110) 0 1440 180 360,
        b.stop - b.start ≤ 120 :=
  c1_schedule_partition "event" (some 1110) 0 1440 180 360
    (by decide) (by decide) (by decide)

/-- C8 (amended): every block emitted by the scheduler satisfies
`start < stop`, provided the event-duration parameters are positive (the
program as shipped accepts `--event-duration-min 0`, which produces an
empty live block; see the counterexample). -/
theorem c8_blocks_nonempty (classification : String) (parsed : Option Nat)
    (day_start day_end ev mev : Nat)
    (hev : 0 < ev) (hmev : 0 < mev) (hday : day_start < day_end) :
    ∀ b ∈ build_channel_schedule classification parsed day_start day_end ev mev,
      b.start < b.stop := by
  intro b hb
  exact ((contigB_bounds (build_channel_schedule_contig classification parsed
    day_start day_end ev mev hev hmev hday)) b hb).2.1

theorem c8_blocks_nonempty_witness :
    (build_channel_schedule "event" (some 600) 0 1440 180 360).all
      (fun b => decide (b.start < b.stop)) = true :=
  List.all_eq_true.mpr fun b hb =>
    decide_eq_true (c8_blocks_nonempty "event" (some 600) 0 1440 180 360
      (by decide) (by decide) (by decide) b hb)

/-- C8 counterexample: with `--event-duration-min 0` (accepted by the
argparse configuration, `type=int` with no positivity check), an event at
minute 600 of the target day produces a live block with `start = stop`,
violating the `start < end` invariant claimed for every accepted
configuration. -/
theorem c8_empty_block_cex :
    ∃ b ∈ build_channel_schedule "event" (some 600) 0 1440 0 360,
      ¬ b.start < b.stop := by decide

theorem specialHit_false (matched_family : String) (payload_upper : List Char) :
    specialHit matched_family payload_upper = false := by
  simp [specialHit, SPECIAL_GENERIC_EXCEPTIONS]

/-- C9: when `classify_channel` is invoked with no match object it does not
fail: it returns classification `"generic"`, empty payload, shell end `0`,
no tokens, and the single warning `no_pattern_match`. -/
theorem c9_no_match_graceful (name : List Char) (matched_family : String) :
    classify_channel name matched_family none
      = ⟨"generic", [], 0, [], ["no_pattern_match"]⟩ := rfl

/-- C2 (amended): for a matched name, if the trimmed post-shell payload is
empty, or if tokenizing the normalized payload yields at least one token
and every token is in the fluff set, then the classification is
`"generic"`, with warning `empty_payload` in the first case and
`all_fluff_tokens` in the second.  (The original claim, without the
"at least one token" condition, is refuted by `c2_vacuous_fluff_cex`.) -/
theorem c2_generic_for_empty_or_fluff (name : List Char)
    (matched_family : String) (me : Nat)
    (h : trimWs (name.drop me) = []
      ∨ (splitTokens (upperL (trimWs (collapseWs (trimWs (name.drop me))))) ≠ []
          ∧ ∀ t ∈ splitTokens (upperL (trimWs (collapseWs (trimWs (name.drop me))))),
              t ∈ FLUFF_TOKENS)) :
    (classify_channel name matched_family (some me)).classification = "generic"
    ∧ (classify_channel name matched_family (some me)).warnings
      = (if trimWs (name.drop me) = [] then ["empty_payload"]
          else ["all_fluff_tokens"]) := by
  rcases h with h | ⟨hne, hall⟩
  · simp [classify_channel, h]
  · have hpne : trimWs (name.drop me) ≠ [] := by
      intro he
      rw [he] at hne
      exact hne rfl
    have hfluff : allFluff
        (splitTokens (upperL (trimWs (collapseWs (trimWs (name.drop me)))))) = true := by
      unfold allFluff
      rw [Bool.and_eq_true]
      constructor
      · simp [List.isEmpty_eq_false.mpr hne]
      · exact List.all_eq_true.mpr fun t ht => List.elem_iff.mpr (hall t ht)
    simp [classify_channel, List.isEmpty_eq_false.mpr hpne, specialHit_false,
      hfluff, hpne]

theorem c2_generic_for_empty_or_fluff_witness :
    (classify_channel "NCAAF 01: FHD live".data "NCAAF" (some 9)).classification
        = "generic"
    ∧ (classify_channel "NCAAF 01: FHD live".data "NCAAF" (some 9)).warnings
      = (if trimWs ("NCAAF 01: FHD live".data.drop 9) = [] then ["empty_payload"]
          else ["all_fluff_tokens"]) :=
  c2_generic_for_empty_or_fluff "NCAAF 01: FHD live".data "NCAAF" 9
    (Or.inr ⟨by decide, by decide⟩)

theorem toUpper_eq_self_of_not_lower {c : Char} (h : c.isLower = false) :
    c.toUpper = c := by
  unfold Char.toUpper
  rw [if_neg]
  intro hcon
  simp [Char.isLower, UInt32.le_def, UInt32.lt_def, BitVec.le_def,
    BitVec.lt_def] at h
  simp [Char.toNat, UInt32.toNat] at hcon
  omega

theorem isTokChar_toUpper_eq_false {c : Char} (h : c.isAlphanum = false) :
    isTokChar c.toUpper = false := by
  have halpha : c.isAlpha = false ∧ c.isDigit = false := by
    simpa [Char.isAlphanum, Bool.or_eq_false_iff] using h
  have hul : c.isUpper = false ∧ c.isLower = false := by
    simpa [Char.isAlpha, Bool.or_eq_false_iff] using halpha.1
  rw [toUpper_eq_self_of_not_lower hul.2]
  simp [isTokChar, hul.1, halpha.2]

theorem mem_collapseGo {flag : Bool} {l : List Char} {c : Char}
    (h : c ∈ collapseGo flag l) : c = ' ' ∨ c ∈ l := by
  induction l generalizing flag with
  | nil => simp [collapseGo] at h
  | cons a rest ih =>
    simp only [collapseGo] at h
    by_cases ha : isPySpace a
    · rw [if_pos ha] at h
      by_cases hf : flag
      · rw [if_pos hf] at h
        rcases ih h with h | h
        · exact Or.inl h
        · exact Or.inr (List.mem_cons_of_mem _ h)
      · rw [if_neg hf] at h
        rcases List.mem_cons.mp h with rfl | h
        · exact Or.inl rfl
        · rcases ih h with h | h
          · exact Or.inl h
          · exact Or.inr (List.mem_cons_of_mem _ h)
    · rw [if_neg ha] at h
      rcases List.mem_cons.mp h with rfl | h
      · exact Or.inr (List.mem_cons_self _ _)
      · rcases ih h with h | h
        · exact Or.inl h
        · exact Or.inr (List.mem_cons_of_mem _ h)

theorem mem_trimWs {l : List Char} {c : Char} (h : c ∈ trimWs l) : c ∈ l := by
  unfold trimWs at h
  rw [List.mem_reverse] at h
  have h1 : c ∈ (l.dropWhile isPySpace).reverse :=
    (List.dropWhile_sublist _).subset h
  rw [List.mem_reverse] at h1
  exact (List.dropWhile_sublist _).subset h1

theorem splitGo_nil_of_no_tok {l : List Char}
    (h : ∀ c ∈ l, isTokChar c = false) : splitGo [] l = [] := by
  induction l with
  | nil => rfl
  | cons a rest ih =>
    have ha := h a (List.mem_cons_self _ _)
    simp only [splitGo, ha]
    simpa using ih fun c hc => h c (List.mem_cons_of_mem _ hc)

/-- C3 (amended): for a matched name whose normalized payload equals the
family label (uppercased), provided the fluff-token guard does not fire
(the tokens of the payload are not a nonempty all-fluff list),
`classify_channel` classifies the channel as Event and emits the warning
`ambiguous_family_only`.  (The original, unconditional claim is refuted by
`c3_all_fluff_family_cex`: for the family `"LIVE EVENT"` the payload equals
the family label yet tokenizes entirely into fluff tokens, so the channel
is classified Generic with `all_fluff_tokens` instead.) -/
theorem c3_family_only_is_event (name : List Char) (matched_family : String)
    (me : Nat) (hfam : matched_family ≠ "")
    (hpu : upperL (trimWs (collapseWs (trimWs (name.drop me))))
      = upperL matched_family.data)
    (hnotfluff : allFluff
      (splitTokens (upperL (trimWs (collapseWs (trimWs (name.drop me)))))) = false) :
    (classify_channel name matched_family (some me)).classification = "event"
    ∧ "ambiguous_family_only"
        ∈ (classify_channel name matched_family (some me)).warnings := by
  have hdata : matched_family.data ≠ [] := by
    intro hd
    exact hfam (String.ext hd)
  have hpne : trimWs (name.drop me) ≠ [] := by
    intro he
    rw [he] at hpu
    have : ([] : List Char) = upperL matched_family.data := hpu
    rw [upperL] at this
    exact hdata (List.map_eq_nil_iff.mp this.symm)
  have hbne : (matched_family != "") = true := bne_iff_ne.mpr hfam
  rw [hpu] at hnotfluff
  simp [classify_channel, List.isEmpty_eq_false.mpr hpne, specialHit_false,
    hnotfluff, hpu, hbne]

theorem c3_family_only_is_event_witness :
    (classify_channel "NHL 01:NHL".data "NHL" (some 7)).classification = "event"
    ∧ "ambiguous_family_only"
        ∈ (classify_channel "NHL 01:NHL".data "NHL" (some 7)).warnings :=
  c3_family_only_is_event "NHL 01:NHL".data "NHL" 7
    (by decide) (by decide) (by decide)

/-- C10: for a matched name whose trimmed post-shell payload is nonempty
but contains no alphanumeric character, tokenization yields no tokens, the
all-fluff rule does not fire, and the channel is classified as Event. -/
theorem c10_no_alnum_payload_is_event (name : List Char)
    (matched_family : String) (me : Nat)
    (hpne : trimWs (name.drop me) ≠ [])
    (hnoalnum : ∀ c ∈ trimWs (name.drop me), c.isAlphanum = false) :
    (classify_channel name matched_family (some me)).tokens = []
    ∧ (classify_channel name matched_family (some me)).classification = "event"
    ∧ "all_fluff_tokens" ∉ (classify_channel name matched_family (some me)).warnings := by
  have key : splitTokens (upperL (trimWs (collapseWs (trimWs (name.drop me))))) = [] := by
    apply splitGo_nil_of_no_tok
    intro c hc
    rw [upperL, List.mem_map] at hc
    obtain ⟨c', hc', rfl⟩ := hc
    apply isTokChar_toUpper_eq_false
    have h2 : c' ∈ collapseWs (trimWs (name.drop me)) := mem_trimWs hc'
    rcases mem_collapseGo h2 with rfl | h3
    · rfl
    · exact hnoalnum c' h3
  have hnf : allFluff ([] : List (List Char)) = false := rfl
  refine ⟨?_, ?_, ?_⟩ <;>
    simp [classify_channel, List.isEmpty_eq_false.mpr hpne, specialHit_false,
      key, hnf]

theorem c10_no_alnum_payload_is_event_witness :
    (classify_channel "NCAAF 01:???".data "NCAAF" (some 9)).tokens = []
    ∧ (classify_channel "NCAAF 01:???".data "NCAAF" (some 9)).classification
        = "event"
    ∧ "all_fluff_tokens"
        ∉ (classify_channel "NCAAF 01:???".data "NCAAF" (some 9)).warnings :=
  c10_no_alnum_payload_is_event "NCAAF 01:???".data "NCAAF" 9
    (by decide) (by decide)

theorem scanPatterns_first {tbl : List (String × List Pat)} {n : List Char}
    {i : Nat} (hi : i < tbl.length)
    (hnone : ∀ j (hj : j < tbl.length), j < i →
      patMatch (tbl.get ⟨j, hj⟩).2 n = none)
    (hsome : (patMatch (tbl.get ⟨i, hi⟩).2 n).isSome) :
    scanPatterns tbl n
      = (true, some (tbl.get ⟨i, hi⟩).1, patMatch (tbl.get ⟨i, hi⟩).2 n) := by
  induction tbl generalizing i with
  | nil => exact absurd hi (by simp)
  | cons e rest ih =>
    cases i with
    | zero =>
      obtain ⟨v, hv⟩ := Option.isSome_iff_exists.mp hsome
      cases e with
      | mk fam rx =>
        simp only [List.get] at hv ⊢
        simp [scanPatterns, hv]
    | succ i' =>
      have h0 : patMatch e.2 n = none := hnone 0 (by simp) (by omega)
      have hstep : scanPatterns (e :: rest) n = scanPatterns rest n := by
        cases e with
        | mk fam rx =>
          simp only [scanPatterns]
          simp only [Prod.snd] at h0
          rw [h0]
      rw [hstep]
      have hi' : i' < rest.length := by simpa using Nat.lt_of_succ_lt_succ hi
      have hnone' : ∀ j (hj : j < rest.length), j < i' →
          patMatch (rest.get ⟨j, hj⟩).2 n = none := by
        intro j hj hji
        have := hnone (j + 1) (by simpa using Nat.succ_lt_succ hj)
          (Nat.succ_lt_succ hji)
        simpa using this
      have hsome' : (patMatch (rest.get ⟨i', hi'⟩).2 n).isSome := by
        simpa using hsome
      simpa using ih hi' hnone' hsome'

/-- C4: shell matching is first-match-wins over `CHANNEL_PATTERNS` in its
declared order: if every pattern before index `i` fails on the normalized
name and pattern `i` matches, `match_prefix_and_shell` reports pattern
`i`'s family and match end — even when a later pattern would also match
(see the witness: `"MILB 01:"` matches both the `MiLB` pattern, index 29,
and the `MILB` pattern, index 30; the earlier `MiLB` wins because the
table is compiled with `re.IGNORECASE`). -/
theorem c4_first_match_wins (name : List Char) (i : Nat)
    (hi : i < CHANNEL_PATTERNS.length)
    (hnone : ∀ j (hj : j < CHANNEL_PATTERNS.length), j < i →
      patMatch (CHANNEL_PATTERNS.get ⟨j, hj⟩).2
        (normalizeColons (trimWs name)) = none)
    (hsome : (patMatch (CHANNEL_PATTERNS.get ⟨i, hi⟩).2
      (normalizeColons (trimWs name))).isSome) :
    match_prefix_and_shell (some name)
      = (true, some (CHANNEL_PATTERNS.get ⟨i, hi⟩).1,
          patMatch (CHANNEL_PATTERNS.get ⟨i, hi⟩).2
            (normalizeColons (trimWs name))) := by
  unfold match_prefix_and_shell
  exact scanPatterns_first hi hnone hsome

theorem c4_first_match_wins_witness :
    (∀ j (hj : j < CHANNEL_PATTERNS.length), j < 29 →
      patMatch (CHANNEL_PATTERNS.get ⟨j, hj⟩).2
        (normalizeColons (trimWs "MILB 01:".data)) = none)
    ∧ match_prefix_and_shell (some "MILB 01:".data)
        = (true, some "MiLB", some 8)
    ∧ (patMatch (CHANNEL_PATTERNS.getD 30 ("", [])).2
        (normalizeColons (trimWs "MILB 01:".data))).isSome :=
  ⟨by decide,
   (c4_first_match_wins "MILB 01:".data 29 (by decide) (by decide)
      (by decide)).trans (by rfl),
   by decide⟩

/-- C7: before any pattern is tried, the input (with Python `None` turned
into `""`) is trimmed and whitespace-before-colon runs are collapsed to a
single colon (`normalizeColons` after `trimWs`); the spec's two example
shapes `"  :  "` and `" :"` collapse as stated; and empty or null input
never matches. -/
theorem c7_normalization_and_empty (name : List Char) :
    match_prefix_and_shell (some name)
      = scanPatterns CHANNEL_PATTERNS (normalizeColons (trimWs name))
    ∧ normalizeColons (trimWs "  NCAAF 01  :  Foo ".data) = "NCAAF 01:Foo".data
    ∧ normalizeColons (trimWs "EPL 01 :Bar".data) = "EPL 01:Bar".data
    ∧ match_prefix_and_shell none = (false, none, none)
    ∧ match_prefix_and_shell (some []) = (false, none, none) :=
  ⟨rfl, by rfl, by rfl, by rfl, by rfl⟩

/-- C2 counterexample: the channel name `"NCAAF 01:???"` matches the NCAAF
pattern with shell end 9; its payload `"???"` is nonempty and yields no
tokens, so "every token belongs to the fluff set" holds vacuously, yet the
channel is classified `"event"`, not `"generic"` as the claim as stated
requires. -/
theorem c2_vacuous_fluff_cex :
    match_prefix_and_shell (some "NCAAF 01:???".data)
      = (true, some "NCAAF", some 9)
    ∧ (∀ t ∈ (classify_channel "NCAAF 01:???".data "NCAAF" (some 9)).tokens,
        t ∈ FLUFF_TOKENS)
    ∧ trimWs ("NCAAF 01:???".data.drop 9) ≠ []
    ∧ (classify_channel "NCAAF 01:???".data "NCAAF" (some 9)).classification
        ≠ "generic" :=
  ⟨by rfl, by decide, by decide, by decide⟩

/-- C3 counterexample: the channel name `"LIVE EVENT 01 LIVE EVENT"`
matches the `LIVE EVENT` pattern with shell end 14 and its normalized
payload equals the family label, but both its tokens (`LIVE`, `EVENT`) are
fluff tokens, so the all-fluff rule fires first: the channel is classified
`"generic"` with `all_fluff_tokens` and no `ambiguous_family_only`
warning, contradicting the claim as stated. -/
theorem c3_all_fluff_family_cex :
    match_prefix_and_shell (some "LIVE EVENT 01 LIVE EVENT".data)
      = (true, some "LIVE EVENT", some 14)
    ∧ upperL (trimWs (collapseWs (trimWs
        ("LIVE EVENT 01 LIVE EVENT".data.drop 14))))
      = upperL ("LIVE EVENT" : String).data
    ∧ (classify_channel "LIVE EVENT 01 LIVE EVENT".data "LIVE EVENT"
        (some 14)).classification = "generic"
    ∧ "ambiguous_family_only"
        ∉ (classify_channel "LIVE EVENT 01 LIVE EVENT".data "LIVE EVENT"
            (some 14)).warnings :=
  ⟨by rfl, by decide, by decide, by decide⟩

theorem tryLoop_cons (i : Nat) (rest : List Nat) (text : List Char)
    (year : Nat) (central : Zone) (date_context : DateD) :
    tryLoop (i :: rest) text year central date_context
      = (grammarOk i text year central date_context
          <|> tryLoop rest text year central date_context) := by
  show (match grammarAttempt i text year central date_context with
      | none => tryLoop rest text year central date_context
      | some (.error _) => tryLoop rest text year central date_context
      | some (.ok t) => some t)
    = (grammarOk i text year central date_context
        <|> tryLoop rest text year central date_context)
  cases h : grammarAttempt i text year central date_context with
  | none => simp [grammarOk, h]
  | some r =>
    cases r with
    | ok t => simp [grammarOk, h]
    | error e => simp [grammarOk, h]

/-- C5: time resolution is total and first-clean-success over the five
grammars: `try_parse_time` equals the ordered `<|>` of the five
per-grammar outcomes, where a grammar that does not occur in the payload,
or whose conversion raises (`grammarOk i = none`), is skipped in favor of
the next; exhausting all five yields `none` (never an exception, which the
embedding renders as `Except` values that the loop swallows); and an
unrecognized timezone abbreviation does not abort resolution but resolves
to US Eastern. -/
theorem c5_resolution_total (payload : List Char) (year : Nat)
    (central : Zone) (date_context : DateD) (abbr : List Char)
    (habbr : (TZ_TO_IANA.find? fun p => p.1.data == upperL abbr) = none) :
    (try_parse_time payload year central date_context
      = (grammarOk 0 (trimWs payload) year central date_context
         <|> grammarOk 1 (trimWs payload) year central date_context
         <|> grammarOk 2 (trimWs payload) year central date_context
         <|> grammarOk 3 (trimWs payload) year central date_context
         <|> grammarOk 4 (trimWs payload) year central date_context))
    ∧ ((∀ i, i < 5 →
          grammarOk i (trimWs payload) year central date_context = none)
        → try_parse_time payload year central date_context = none)
    ∧ tzinfo_for_abbr abbr = Zone.ny := by
  have h1 : try_parse_time payload year central date_context
      = (grammarOk 0 (trimWs payload) year central date_context
         <|> grammarOk 1 (trimWs payload) year central date_context
         <|> grammarOk 2 (trimWs payload) year central date_context
         <|> grammarOk 3 (trimWs payload) year central date_context
         <|> grammarOk 4 (trimWs payload) year central date_context) := by
    unfold try_parse_time
    rw [tryLoop_cons, tryLoop_cons, tryLoop_cons, tryLoop_cons, tryLoop_cons]
    simp [tryLoop]
  refine ⟨h1, ?_, ?_⟩
  · intro hall
    rw [h1, hall 0 (by omega), hall 1 (by omega), hall 2 (by omega),
      hall 3 (by omega), hall 4 (by omega)]
    rfl
  · unfold tzinfo_for_abbr
    rw [habbr]

theorem c5_resolution_total_witness :
    (try_parse_time "no game info".data 2025 Zone.chicago ⟨2025, 10, 22⟩
      = (grammarOk 0 (trimWs "no game info".data) 2025 Zone.chicago ⟨2025, 10, 22⟩
         <|> grammarOk 1 (trimWs "no game info".data) 2025 Zone.chicago ⟨2025, 10, 22⟩
         <|> grammarOk 2 (trimWs "no game info".data) 2025 Zone.chicago ⟨2025, 10, 22⟩
         <|> grammarOk 3 (trimWs "no game info".data) 2025 Zone.chicago ⟨2025, 10, 22⟩
         <|> grammarOk 4 (trimWs "no game info".data) 2025 Zone.chicago ⟨2025, 10, 22⟩))
    ∧ ((∀ i, i < 5 →
          grammarOk i (trimWs "no game info".data) 2025 Zone.chicago
            ⟨2025, 10, 22⟩ = none)
        → try_parse_time "no game info".data 2025 Zone.chicago ⟨2025, 10, 22⟩
            = none)
    ∧ tzinfo_for_abbr "XYZ".data = Zone.ny :=
  c5_resolution_total "no game info".data 2025 Zone.chicago ⟨2025, 10, 22⟩
    "XYZ".data (by decide)

/-- C6 (amended): year rollover — whenever the instant constructed by a
month/day-supplying grammar has a date more than 60 days before the target
date, *and the year-incremented date is itself a valid calendar date*, the
year is incremented by one with all other fields unchanged; in particular
the payload `"Jan 15 07:00 PM ET"` with target date 2025-12-20 resolves to
2026-01-15 (18:00 Central), not 2025-01-15.  (The original, unconditional
claim is refuted by `c6_feb29_no_rollover_cex`: for a Feb 29 candidate the
adjustment `datetime.replace(year=year+1)` raises `ValueError`, the
grammar is skipped, and no instant with the incremented year is ever
produced.) -/
theorem c6_year_rollover (t : DTime) (date_context : DateD)
    (hdiff : (toOrdinal date_context.year date_context.month
      date_context.day : Int) - toOrdinal t.year t.month t.day > 60)
    (hvalid : validDT ⟨t.year + 1, t.month, t.day, t.hour, t.minute, t.zone⟩
      = true) :
    handle_year_rollover t date_context
      = .ok ⟨t.year + 1, t.month, t.day, t.hour, t.minute, t.zone⟩
    ∧ (try_parse_time "Jan 15 07:00 PM ET".data 2025 Zone.chicago
        ⟨2025, 12, 20⟩).map (fun r => (r.year, r.month, r.day))
      = some (2026, 1, 15) := by
  constructor
  · unfold handle_year_rollover
    rw [if_pos hdiff]
    unfold mk_datetime
    rw [if_pos hvalid]
  · rfl

theorem c6_year_rollover_witness :
    handle_year_rollover ⟨2025, 1, 15, 19, 0, Zone.ny⟩ ⟨2025, 12, 20⟩
      = .ok ⟨2026, 1, 15, 19, 0, Zone.ny⟩
    ∧ (try_parse_time "Jan 15 07:00 PM ET".data 2025 Zone.chicago
        ⟨2025, 12, 20⟩).map (fun r => (r.year, r.month, r.day))
      = some (2026, 1, 15) :=
  c6_year_rollover ⟨2025, 1, 15, 19, 0, Zone.ny⟩ ⟨2025, 12, 20⟩
    (by decide) (by decide)

/-- C6 counterexample: the payload `"Feb 29 08:55 PM ET"` with year 2024
and target date 2024-05-01 makes grammar 0 construct the valid candidate
2024-02-29 20:55 ET, whose date is 62 (> 60) days before the target date —
the claim's antecedent holds — yet the year is not incremented:
`_handle_year_rollover` raises (`replace` to 2025-02-29 is invalid), the
raised error is swallowed, grammar 0 is skipped, and the resolver falls
through to grammar 1, anchoring to the target date (2024-05-01 19:55
Central); no resolved instant carries the incremented year. -/
theorem c6_feb29_no_rollover_cex :
    mk_datetime 2024 2 29 20 55 Zone.ny = .ok ⟨2024, 2, 29, 20, 55, Zone.ny⟩
    ∧ (toOrdinal 2024 5 1 : Int) - toOrdinal 2024 2 29 > 60
    ∧ handle_year_rollover ⟨2024, 2, 29, 20, 55, Zone.ny⟩ ⟨2024, 5, 1⟩
        = .error "ValueError"
    ∧ grammarAttempt 0 (trimWs "Feb 29 08:55 PM ET".data) 2024 Zone.chicago
        ⟨2024, 5, 1⟩ = some (.error "ValueError")
    ∧ (try_parse_time "Feb 29 08:55 PM ET".data 2024 Zone.chicago
        ⟨2024, 5, 1⟩).map (fun r => (r.year, r.month, r.day, r.hour, r.minute))
      = some (2024, 5, 1, 19, 55) :=
  ⟨by rfl, by decide, by rfl, by rfl, by rfl⟩
